import Mathlib

/-!
Verification of the contract-deployment fragment in
packages/api-contract/src/base/Code.ts: salt encoding, constructor-argument
encoding, dual-protocol call construction, and event-driven result
projection.  Pure helpers from the external codec package (compactAddLength,
isWasm, u8aToU8a, stringCamelCase) are translated from their documented
behaviour; collaborators that live elsewhere in the repository
(encodeSalt, Abi.findConstructor, toU8a, applyOnEvent) are modelled from the
specification and marked as such in their doc comments.
-/

set_option autoImplicit false

namespace ApiContract

/-- Codec argument values passed to a constructor; opaque to this fragment. -/
abbrev CodecArg := Nat

/-- An event emitted by the runtime: its kind tag and its data fields.
Field access data[i] is modelled as List.get?, so a missing field is none,
mirroring a JavaScript undefined. -/
structure EventRec where
  kind : String
  data : List Nat
deriving DecidableEq, Repr

/-- The finalized outcome of a submitted call: the ordered emitted events. -/
structure SubmittableResult where
  events : List EventRec
deriving DecidableEq, Repr

/-- Deployed-code handle (Blueprint), holding the code hash taken from a
CodeStored event's first data field. -/
structure Blueprint where
  codeHash : Option Nat
deriving DecidableEq, Repr

/-- Contract-instance handle, holding the address taken from an Instantiated
event's second data field. -/
structure Contract where
  address : Option Nat
deriving DecidableEq, Repr

/-- Result wrappers around a raw submission result.  CodeSubmittableResult
(Code.ts lines 22-32) carries an optional blueprint and an optional contract;
BlueprintSubmittableResult (constructed at Code.ts line 110, declared in
base/Blueprint.ts which is outside this fragment) carries only an optional
contract. -/
inductive DeploymentResult where
  | codeSubmittableResult (result : SubmittableResult)
      (blueprint : Option Blueprint) (contract : Option Contract)
  | blueprintSubmittableResult (result : SubmittableResult)
      (contract : Option Contract)
deriving DecidableEq, Repr

/-- Blueprint handle carried by a deployment result, if any. -/
def DeploymentResult.blueprintOf : DeploymentResult → Option Blueprint
  | .codeSubmittableResult _ bp _ => bp
  | .blueprintSubmittableResult _ _ => none

/-- Contract handle carried by a deployment result, if any. -/
def DeploymentResult.contractOf : DeploymentResult → Option Contract
  | .codeSubmittableResult _ _ ct => ct
  | .blueprintSubmittableResult _ ct => ct

/-- Raw submission result wrapped inside a deployment result. -/
def DeploymentResult.rawResult : DeploymentResult → SubmittableResult
  | .codeSubmittableResult r _ _ => r
  | .blueprintSubmittableResult r _ => r

/-- Whether the wrapper is the CodeSubmittableResult class. -/
def DeploymentResult.isCodeSubmittableResult : DeploymentResult → Bool
  | .codeSubmittableResult _ _ _ => true
  | .blueprintSubmittableResult _ _ => false

/-! External codec utilities from the util package, translated from their
documented behaviour. -/

/-- Input accepted where the runtime expects raw bytes: raw bytes, a string
(normalized to its character bytes), or a nullish value (normalized to the
empty byte sequence), as u8aToU8a of the util package does. -/
inductive U8aLike where
  | raw (b : List Nat)
  | str (s : String)
  | nullish
deriving Repr

/-- Normalization of a byte-like input to bytes (u8aToU8a). -/
def u8aToU8a : U8aLike → List Nat
  | .raw b => b
  | .str s => s.toList.map Char.toNat
  | .nullish => []

/-- Magic bytes that open every wasm module. -/
def WASM_MAGIC : List Nat := [0, 97, 115, 109]

/-- Recognizer for wasm bytecode: the first four bytes are the wasm magic. -/
def isWasm (b : List Nat) : Bool :=
  b.take 4 == WASM_MAGIC

/-- Little-endian bytes of n in a fixed width. -/
def toLE : Nat → Nat → List Nat
  | 0, _ => []
  | w + 1, n => n % 256 :: toLE w (n / 256)

/-- Minimal little-endian byte sequence of n. -/
def natLEBytes (n : Nat) : List Nat :=
  if h : n < 256 then [n]
  else n % 256 :: natLEBytes (n / 256)
termination_by n
decreasing_by exact Nat.div_lt_self (by omega) (by omega)

/-- SCALE compact encoding of a natural number. -/
def compactEncode (n : Nat) : List Nat :=
  if n < 64 then [n * 4]
  else if n < 16384 then toLE 2 (n * 4 + 1)
  else if n < 1073741824 then toLE 4 (n * 4 + 2)
  else (((natLEBytes n).length - 4) * 4 + 3) :: natLEBytes n

/-- Wraps a byte blob with its compact-encoded length (compactAddLength). -/
def compactAddLength (b : List Nat) : List Nat :=
  compactEncode b.length ++ b

/-- Separator characters recognized by the camel-case normalizer. -/
def isSepChar (c : Char) : Bool :=
  c == '_' || c == '-' || c == '.' || c == ',' || c == ' '

/-- Camel-casing of a character list: separators are dropped and the
character following a separator is upper-cased. -/
def camelChars : List Char → Bool → List Char
  | [], _ => []
  | c :: cs, up =>
    if isSepChar c then camelChars cs true
    else (if up then c.toUpper else c) :: camelChars cs false

/-- Identifier normalization (stringCamelCase): separators dropped, following
characters upper-cased, leading character lower-cased. -/
def stringCamelCase (s : String) : String :=
  match camelChars s.toList false with
  | [] => ""
  | c :: cs => String.mk (c.toLower :: cs)

/-! Collaborators from elsewhere in the repository, modelled from the spec. -/

/-- Modelled from the spec: the fixed empty-salt sentinel EMPTY_SALT declared
in base/util.ts, which is outside this fragment. -/
def EMPTY_SALT : List Nat := []

/-- Modelled from the spec: encodeSalt of base/util.ts, which is outside this
fragment.  Per spec 4.1, an absent salt yields the empty-salt sentinel and a
supplied salt is normalized to binary form, unchanged in length and content. -/
def encodeSalt : Option U8aLike → List Nat
  | none => EMPTY_SALT
  | some s => u8aToU8a s

/-- An ABI constructor entry: its declared identifier and the serialization
of argument values delegated to the external codec collaborator. -/
structure AbiConstructor where
  identifier : String
  encArgs : List CodecArg → List Nat

/-- The ABI descriptor: the declared constructor table and the wasm the ABI
project source may itself embed (abi.project.source.wasm). -/
structure Abi where
  constructors : List AbiConstructor
  sourceWasm : List Nat

/-- A constructor selector: a descriptor object, a string identifier, or a
positional index (Code.ts constructorOrId). -/
inductive CtorSelector where
  | byCtor (c : AbiConstructor)
  | byId (s : String)
  | byIndex (n : Nat)

/-- Error kinds surfaced by this fragment. -/
inductive DeployError where
  | constructorNotFound
  | invalidCodeBundle
deriving DecidableEq, Repr

/-- Modelled from the spec: Abi.findConstructor, declared in Abi.ts which is
outside this fragment.  Per spec 4.2 and 6, the selector resolves to exactly
one constructor entry (a descriptor object resolves to itself, a string
matches the declared or normalized identifier, an index selects positionally)
or the operation fails with ConstructorNotFound. -/
def Abi.findConstructor (abi : Abi) : CtorSelector → Except DeployError AbiConstructor
  | .byCtor c => .ok c
  | .byId s =>
    match abi.constructors.find? (fun c => c.identifier == s || stringCamelCase c.identifier == s) with
    | some c => .ok c
    | none => .error .constructorNotFound
  | .byIndex n =>
    match abi.constructors.get? n with
    | some c => .ok c
    | none => .error .constructorNotFound

/-- Modelled from the spec: the toU8a encoding of a resolved constructor,
declared outside this fragment.  Per spec 4.2 it serializes the arguments in
declared order via the external codec and, only when a trailing salt is
supplied, appends it after the argument bytes. -/
def AbiConstructor.toU8a (c : AbiConstructor) (params : List CodecArg)
    (trailingSalt : Option (List Nat)) : List Nat :=
  c.encArgs params ++ (trailingSalt.getD [])

/-- Modelled from the spec: applyOnEvent of api-contract/src/util.ts, which
is outside this fragment.  Per spec 4.4 it filters the finalized result's
events to those whose kind is among the expected tags and applies the
projection to the filtered list; when the filtered list is empty nothing is
produced (both handle slots remain unset). -/
def applyOnEvent {α : Type} (r : SubmittableResult) (types : List String)
    (f : List EventRec → α) : Option α :=
  let records := r.events.filter (fun e => types.contains e.kind)
  if records.isEmpty then none else some (f records)

/-! The runtime surface and call descriptions. -/

/-- The connected runtime's contracts transaction surface: whether the
combined instantiateWithCode call exists, and the declared argument count of
the instantiate call (api.tx.contracts.instantiate.meta.args.length). -/
structure ContractsTx where
  hasInstantiateWithCode : Bool
  instantiateArgsLen : Nat
deriving DecidableEq, Repr

/-- The connected api, reduced to the surface this fragment probes. -/
structure Api where
  contracts : ContractsTx
deriving DecidableEq, Repr

/-- One positional argument of an assembled call. -/
inductive CallArg where
  | num (n : Nat)
  | bytes (b : List Nat)
  | hash (h : Nat)
deriving DecidableEq, Repr

/-- An assembled outbound call: pallet, method and positional arguments. -/
structure CallDesc where
  sectionName : String
  methodName : String
  args : List CallArg
deriving DecidableEq, Repr

/-- A submittable call: the assembled call plus the result transform that
wraps the raw submission result (withResultTransform). -/
structure SubmittableCall where
  call : CallDesc
  transform : SubmittableResult → DeploymentResult

/-- Deployment options (BlueprintOptions): gasLimit and value defaulting to
zero, and the optional salt. -/
structure BlueprintOptions where
  gasLimit : Nat := 0
  value : Nat := 0
  salt : Option U8aLike := none

/-! The Code class. -/

/-- The deployment object (the Code class): the connected api, the ABI, the
selected code bytes, the code hash inherited from Base, and the lazily built
per-constructor tx table (the #tx field). -/
structure Code where
  api : Api
  abi : Abi
  code : List Nat
  codeHash : Nat
  tx : List (String × AbiConstructor)

/-- One iteration of the constructor loop (lines 48-54): bind the
camel-cased identifier to an entry dispatching this constructor, only when no
entry with that name exists yet.  An entry is represented by the constructor
it dispatches. -/
def txTableStep (tbl : List (String × AbiConstructor)) (c : AbiConstructor) :
    List (String × AbiConstructor) :=
  let messageName := stringCamelCase c.identifier
  if (tbl.lookup messageName).isNone then tbl ++ [(messageName, c)] else tbl

/-- The per-constructor tx table built in the Code constructor (lines 48-54)
by iterating the declared constructors in order. -/
def buildTxTable (cs : List AbiConstructor) : List (String × AbiConstructor) :=
  cs.foldl txTableStep []

/-- The Code constructor (lines 39-55): the code is the wasm embedded in the
ABI source when that is recognizable wasm, otherwise the normalized supplied
bytes; construction fails when the selected code is not recognizable wasm. -/
def mkCode (api : Api) (abi : Abi) (wasm : U8aLike) (codeHash : Nat) :
    Except DeployError Code :=
  let code := if isWasm abi.sourceWasm then abi.sourceWasm else u8aToU8a wasm
  if isWasm code then
    .ok { api := api, abi := abi, code := code, codeHash := codeHash,
          tx := buildTxTable abi.constructors }
  else
    .error .invalidCodeBundle

/-! Result projection. -/

/-- Blueprint handle built from a CodeStored event's first data field. -/
def mkBp (e : EventRec) : Blueprint := ⟨e.data.get? 0⟩

/-- Contract handle built from an Instantiated event's second data field. -/
def mkCt (e : EventRec) : Contract := ⟨e.data.get? 1⟩

/-- One step of the reduce in #instantiateSingle (lines 88-94): an
Instantiated event rebinds the contract slot from its second data field, a
CodeStored event rebinds the blueprint slot from its first data field, any
other event leaves the accumulator unchanged. -/
def projectStep (acc : Option Blueprint × Option Contract) (e : EventRec) :
    Option Blueprint × Option Contract :=
  if e.kind == "Instantiated" then (acc.1, some (mkCt e))
  else if e.kind == "CodeStored" then (some (mkBp e), acc.2)
  else acc

/-- The left-to-right reduce over the filtered events, starting from the
empty pair (line 94). -/
def projectSingle (evs : List EventRec) : Option Blueprint × Option Contract :=
  evs.foldl projectStep (none, none)

/-- Result transform of createBlueprint (lines 63-67): wraps the result in
CodeSubmittableResult with a Blueprint built from the first filtered
CodeStored event's first data field. -/
def createBlueprintTransform (r : SubmittableResult) : DeploymentResult :=
  .codeSubmittableResult r
    (applyOnEvent r ["CodeStored"]
      (fun records => Blueprint.mk (records.head?.bind (fun e => e.data.get? 0))))
    none

/-- Result transform of #instantiateSingle (lines 86-96): wraps the result in
CodeSubmittableResult with the pair reduced from the filtered CodeStored and
Instantiated events; when nothing was produced both slots are unset. -/
def instantiateSingleTransform (r : SubmittableResult) : DeploymentResult :=
  match applyOnEvent r ["CodeStored", "Instantiated"] projectSingle with
  | some (bp, ct) => .codeSubmittableResult r bp ct
  | none => .codeSubmittableResult r none none

/-- Result transform of #instantiateDual (lines 109-113): wraps the result in
BlueprintSubmittableResult with a Contract built from the first filtered
Instantiated event's second data field. -/
def instantiateDualTransform (r : SubmittableResult) : DeploymentResult :=
  .blueprintSubmittableResult r
    (applyOnEvent r ["Instantiated"]
      (fun records => Contract.mk (records.head?.bind (fun e => e.data.get? 1))))

/-! Call construction. -/

/-- The createBlueprint call (lines 60-68): one putCode call carrying the
length-prefixed code bundle, with the createBlueprint result transform. -/
def Code.createBlueprint (code : Code) : SubmittableCall :=
  { call := { sectionName := "contracts", methodName := "putCode",
              args := [.bytes (compactAddLength code.code)] },
    transform := createBlueprintTransform }

/-- The second capability probe of #instantiateDual (line 101): whether the
instantiate call declares five arguments. -/
def Code.dualWithSalt (code : Code) : Bool :=
  code.api.contracts.instantiateArgsLen == 5

/-- The salt supplied to the encoding call in #instantiateDual (line 102):
the empty-salt sentinel when the instantiate call declares five arguments,
otherwise the caller's encoded salt. -/
def Code.dualEncodingSalt (code : Code) (salt : Option U8aLike) : List Nat :=
  if code.dualWithSalt then EMPTY_SALT else encodeSalt salt

/-- The SinglePhase builder #instantiateSingle (lines 80-97): resolves the
constructor (failing with ConstructorNotFound before any call is assembled),
then builds one instantiateWithCode call carrying value, gasLimit, the
length-prefixed code bundle, the encoded arguments and the encoded salt. -/
def Code.instantiateSingle (code : Code) (sel : CtorSelector)
    (o : BlueprintOptions) (p : List CodecArg) : Except DeployError SubmittableCall :=
  let encodedSalt := encodeSalt o.salt
  match code.abi.findConstructor sel with
  | .error e => .error e
  | .ok c =>
    let encoded := AbiConstructor.toU8a c p none
    .ok { call := { sectionName := "contracts", methodName := "instantiateWithCode",
                    args := [.num o.value, .num o.gasLimit,
                             .bytes (compactAddLength code.code),
                             .bytes encoded, .bytes encodedSalt] },
          transform := instantiateSingleTransform }

/-- The DualPhase builder #instantiateDual (lines 99-114): resolves the
constructor (failing with ConstructorNotFound before any call is assembled),
encodes the arguments with the arity-dependent salt, and builds one
instantiate call with the explicit salt as fifth argument exactly when the
runtime declares five arguments. -/
def Code.instantiateDual (code : Code) (sel : CtorSelector)
    (o : BlueprintOptions) (p : List CodecArg) : Except DeployError SubmittableCall :=
  let encodedSalt := encodeSalt o.salt
  let withSalt := code.dualWithSalt
  match code.abi.findConstructor sel with
  | .error e => .error e
  | .ok c =>
    let encoded := AbiConstructor.toU8a c p (some (code.dualEncodingSalt o.salt))
    let txArgs :=
      if withSalt then
        [CallArg.num o.value, CallArg.num o.gasLimit, CallArg.hash code.codeHash,
         CallArg.bytes encoded, CallArg.bytes encodedSalt]
      else
        [CallArg.num o.value, CallArg.num o.gasLimit, CallArg.hash code.codeHash,
         CallArg.bytes encoded]
    .ok { call := { sectionName := "contracts", methodName := "instantiate",
                    args := txArgs },
          transform := instantiateDualTransform }

/-- The dispatcher #instantiate (lines 74-78): the SinglePhase path exactly
when the runtime exposes the combined instantiateWithCode call, otherwise
the DualPhase path. -/
def Code.instantiate (code : Code) (sel : CtorSelector)
    (o : BlueprintOptions) (p : List CodecArg) : Except DeployError SubmittableCall :=
  if code.api.contracts.hasInstantiateWithCode then
    code.instantiateSingle sel o p
  else
    code.instantiateDual sel o p

/-! Observation helpers used in theorem statements. -/

/-- The assembled call of a builder outcome, when one was built. -/
def callOf : Except DeployError SubmittableCall → Option CallDesc
  | .ok sc => some sc.call
  | .error _ => none

/-- The transformed result a built call produces on a given raw result. -/
def transformResult (x : Except DeployError SubmittableCall)
    (r : SubmittableResult) : Option DeploymentResult :=
  match x with
  | .ok sc => some (sc.transform r)
  | .error _ => none

/-! Concrete instances used by witnesses and counterexamples. -/

/-- A declared constructor whose encoding is the identity on values. -/
def ctorA : AbiConstructor := { identifier := "new", encArgs := fun p => p }

/-- A second declared constructor. -/
def ctorB : AbiConstructor := { identifier := "new_default", encArgs := fun p => 0 :: p }

/-- A third declared constructor whose identifier camel-cases like ctorB's. -/
def ctorC : AbiConstructor := { identifier := "new-default", encArgs := fun p => 1 :: p }

/-- A small ABI with one constructor and no embedded wasm. -/
def abi0 : Abi := { constructors := [ctorA], sourceWasm := [] }

/-- Valid wasm bytes. -/
def wasm0 : List Nat := [0, 97, 115, 109, 1, 0]

/-- Options carrying a one-byte salt. -/
def opts0 : BlueprintOptions := { gasLimit := 2, value := 3, salt := some (U8aLike.raw [7]) }

/-- A legacy runtime without instantiateWithCode, instantiate taking four
arguments. -/
def api4 : Api := { contracts := { hasInstantiateWithCode := false, instantiateArgsLen := 4 } }

/-- A legacy runtime without instantiateWithCode, instantiate taking five
arguments. -/
def api5 : Api := { contracts := { hasInstantiateWithCode := false, instantiateArgsLen := 5 } }

/-- A runtime exposing the combined instantiateWithCode call. -/
def apiS : Api := { contracts := { hasInstantiateWithCode := true, instantiateArgsLen := 5 } }

/-- A deployment object connected to the four-argument legacy runtime. -/
def code4 : Code :=
  { api := api4, abi := abi0, code := wasm0, codeHash := 99, tx := buildTxTable abi0.constructors }

/-- A deployment object connected to the five-argument legacy runtime. -/
def code5 : Code :=
  { api := api5, abi := abi0, code := wasm0, codeHash := 99, tx := buildTxTable abi0.constructors }

/-- A deployment object connected to the combined-call runtime. -/
def codeS : Code :=
  { api := apiS, abi := abi0, code := wasm0, codeHash := 99, tx := buildTxTable abi0.constructors }

/-- A raw result with no events. -/
def r0 : SubmittableResult := { events := [] }

/-- A raw result with two CodeStored events carrying distinct hashes. -/
def rTwoStores : SubmittableResult :=
  { events := [{ kind := "CodeStored", data := [1] }, { kind := "CodeStored", data := [2] }] }

/-- An ABI with no constructors and no embedded wasm. -/
def abiBad : Abi := { constructors := [], sourceWasm := [] }

/-! Helper lemmas shared by the claim theorems. -/

theorem contains_one (a k : String) : (([a] : List String)).contains k = (k == a) := by
  simp [List.contains_cons, beq_eq_decide]

theorem contains_two (a b k : String) :
    (([a, b] : List String)).contains k = (k == a || k == b) := by
  simp only [List.contains_cons, List.contains_nil, Bool.or_false]

theorem filter_tags_one (evs : List EventRec) (a : String) :
    evs.filter (fun e => (([a] : List String)).contains e.kind) =
      evs.filter (fun e => e.kind == a) :=
  List.filter_congr (fun e _ => contains_one a e.kind)

theorem filter_tags_two (evs : List EventRec) (a b : String) :
    evs.filter (fun e => (([a, b] : List String)).contains e.kind) =
      evs.filter (fun e => e.kind == a || e.kind == b) :=
  List.filter_congr (fun e _ => contains_two a b e.kind)

theorem createBlueprintTransform_eq (r : SubmittableResult) :
    createBlueprintTransform r =
      .codeSubmittableResult r
        (((r.events.filter (fun e => e.kind == "CodeStored")).head?).map mkBp) none := by
  have happ : applyOnEvent r ["CodeStored"]
      (fun records => Blueprint.mk (records.head?.bind (fun e => e.data.get? 0))) =
      if (r.events.filter (fun e => e.kind == "CodeStored")).isEmpty then none
      else some (Blueprint.mk
        ((r.events.filter (fun e => e.kind == "CodeStored")).head?.bind
          (fun e => e.data.get? 0))) := by
    simp only [applyOnEvent, filter_tags_one]
  unfold createBlueprintTransform
  rw [happ]
  cases h : r.events.filter (fun e => e.kind == "CodeStored") with
  | nil => simp
  | cons e es => simp [mkBp]

theorem instantiateDualTransform_eq (r : SubmittableResult) :
    instantiateDualTransform r =
      .blueprintSubmittableResult r
        (((r.events.filter (fun e => e.kind == "Instantiated")).head?).map mkCt) := by
  have happ : applyOnEvent r ["Instantiated"]
      (fun records => Contract.mk (records.head?.bind (fun e => e.data.get? 1))) =
      if (r.events.filter (fun e => e.kind == "Instantiated")).isEmpty then none
      else some (Contract.mk
        ((r.events.filter (fun e => e.kind == "Instantiated")).head?.bind
          (fun e => e.data.get? 1))) := by
    simp only [applyOnEvent, filter_tags_one]
  unfold instantiateDualTransform
  rw [happ]
  cases h : r.events.filter (fun e => e.kind == "Instantiated") with
  | nil => simp
  | cons e es => simp [mkCt]

theorem instantiateSingleTransform_eq (r : SubmittableResult) :
    instantiateSingleTransform r =
      .codeSubmittableResult r
        (projectSingle (r.events.filter
          (fun e => e.kind == "CodeStored" || e.kind == "Instantiated"))).1
        (projectSingle (r.events.filter
          (fun e => e.kind == "CodeStored" || e.kind == "Instantiated"))).2 := by
  have happ : applyOnEvent r ["CodeStored", "Instantiated"] projectSingle =
      if (r.events.filter
          (fun e => e.kind == "CodeStored" || e.kind == "Instantiated")).isEmpty then none
      else some (projectSingle (r.events.filter
          (fun e => e.kind == "CodeStored" || e.kind == "Instantiated"))) := by
    simp only [applyOnEvent, filter_tags_two]
  unfold instantiateSingleTransform
  rw [happ]
  cases h : r.events.filter (fun e => e.kind == "CodeStored" || e.kind == "Instantiated") with
  | nil => simp [projectSingle]
  | cons e es =>
    rcases hp : projectSingle (e :: es) with ⟨bp, ct⟩
    simp [hp]

theorem projectStep_codeStored (acc : Option Blueprint × Option Contract) (d : List Nat) :
    projectStep acc { kind := "CodeStored", data := d } = (some ⟨d.get? 0⟩, acc.2) := rfl

theorem projectStep_instantiated (acc : Option Blueprint × Option Contract) (d : List Nat) :
    projectStep acc { kind := "Instantiated", data := d } = (acc.1, some ⟨d.get? 1⟩) := rfl

theorem projectStep_other (acc : Option Blueprint × Option Contract) (e : EventRec)
    (h1 : e.kind ≠ "CodeStored") (h2 : e.kind ≠ "Instantiated") :
    projectStep acc e = acc := by
  simp [projectStep, h1, h2]

theorem foldl_projectStep_fst (evs : List EventRec) (acc : Option Blueprint × Option Contract) :
    (List.foldl projectStep acc evs).1 =
      match (evs.filter (fun e => e.kind == "CodeStored")).getLast? with
      | some e => some (mkBp e)
      | none => acc.1 := by
  induction evs using List.reverseRecOn generalizing acc with
  | nil => simp
  | append_singleton l e ih =>
    rw [List.foldl_append, List.filter_append]
    simp only [List.foldl_cons, List.foldl_nil]
    by_cases hI : e.kind = "Instantiated"
    · have hf : List.filter (fun x => x.kind == "CodeStored") [e] = [] := by simp [hI]
      rw [hf, List.append_nil]
      have hstep : (projectStep (List.foldl projectStep acc l) e).1 =
          (List.foldl projectStep acc l).1 := by simp [projectStep, hI]
      rw [hstep, ih acc]
    · by_cases hC : e.kind = "CodeStored"
      · have hf : List.filter (fun x => x.kind == "CodeStored") [e] = [e] := by simp [hC]
        rw [hf, List.getLast?_concat]
        simp [projectStep, hI, hC, mkBp]
      · have hf : List.filter (fun x => x.kind == "CodeStored") [e] = [] := by simp [hC]
        rw [hf, List.append_nil]
        rw [projectStep_other _ e hC hI, ih acc]

theorem foldl_projectStep_snd (evs : List EventRec) (acc : Option Blueprint × Option Contract) :
    (List.foldl projectStep acc evs).2 =
      match (evs.filter (fun e => e.kind == "Instantiated")).getLast? with
      | some e => some (mkCt e)
      | none => acc.2 := by
  induction evs using List.reverseRecOn generalizing acc with
  | nil => simp
  | append_singleton l e ih =>
    rw [List.foldl_append, List.filter_append]
    simp only [List.foldl_cons, List.foldl_nil]
    by_cases hI : e.kind = "Instantiated"
    · have hf : List.filter (fun x => x.kind == "Instantiated") [e] = [e] := by simp [hI]
      rw [hf, List.getLast?_concat]
      simp [projectStep, hI, mkCt]
    · by_cases hC : e.kind = "CodeStored"
      · have hf : List.filter (fun x => x.kind == "Instantiated") [e] = [] := by simp [hI]
        rw [hf, List.append_nil]
        have hstep : (projectStep (List.foldl projectStep acc l) e).2 =
            (List.foldl projectStep acc l).2 := by simp [projectStep, hI, hC]
        rw [hstep, ih acc]
      · have hf : List.filter (fun x => x.kind == "Instantiated") [e] = [] := by simp [hI]
        rw [hf, List.append_nil]
        rw [projectStep_other _ e hC hI, ih acc]

theorem filter_cs_of_both (evs : List EventRec) :
    (evs.filter (fun e => e.kind == "CodeStored" || e.kind == "Instantiated")).filter
        (fun e => e.kind == "CodeStored") =
      evs.filter (fun e => e.kind == "CodeStored") := by
  rw [List.filter_filter]
  exact List.filter_congr (fun e _ => by cases h : e.kind == "CodeStored" <;> simp [h])

theorem beq_comm_str (a b : String) : (a == b) = (b == a) := by
  cases h : a == b with
  | false =>
    cases h2 : b == a with
    | false => rfl
    | true => rw [eq_of_beq h2] at h; rw [beq_self_eq_true] at h; exact h.symm ▸ rfl
  | true => rw [eq_of_beq h, beq_self_eq_true]

theorem lookup_append_single (tbl : List (String × AbiConstructor)) (k : String)
    (v : AbiConstructor) (n : String) :
    (tbl ++ [(k, v)]).lookup n =
      match tbl.lookup n with
      | some w => some w
      | none => if n == k then some v else none := by
  induction tbl with
  | nil =>
    rw [List.nil_append, List.lookup_cons, List.lookup_nil]
    cases h : n == k <;> simp [h]
  | cons a tl ih =>
    obtain ⟨ka, va⟩ := a
    rw [List.cons_append, List.lookup_cons, List.lookup_cons]
    cases h : n == ka <;> simp [h, ih]

theorem foldl_txTableStep_lookup (cs : List AbiConstructor)
    (tbl : List (String × AbiConstructor)) (n : String) :
    (cs.foldl txTableStep tbl).lookup n =
      match tbl.lookup n with
      | some v => some v
      | none => cs.find? (fun c => stringCamelCase c.identifier == n) := by
  induction cs generalizing tbl with
  | nil => cases h : tbl.lookup n <;> simp [h]
  | cons c cs ih =>
    rw [List.foldl_cons, ih]
    unfold txTableStep
    cases hk : tbl.lookup (stringCamelCase c.identifier) with
    | some w =>
      simp only [hk, Option.isNone_some, Bool.false_eq_true, if_false]
      cases hn : tbl.lookup n with
      | some u => simp
      | none =>
        rw [List.find?_cons]
        cases hcn : stringCamelCase c.identifier == n with
        | true =>
          exfalso
          rw [eq_of_beq hcn] at hk
          rw [hn] at hk
          exact Option.noConfusion hk
        | false => simp
    | none =>
      simp only [hk, Option.isNone_none, if_true]
      rw [lookup_append_single]
      cases hn : tbl.lookup n with
      | some u => simp
      | none =>
        rw [List.find?_cons, beq_comm_str (stringCamelCase c.identifier) n]
        cases hnk : n == stringCamelCase c.identifier with
        | true => simp [hnk]
        | false => simp [hnk]

theorem findConstructor_error_shape (abi : Abi) (sel : CtorSelector)
    (h : ∀ c, abi.findConstructor sel ≠ .ok c) :
    abi.findConstructor sel = .error .constructorNotFound := by
  cases sel with
  | byCtor c => exact absurd rfl (h c)
  | byId s =>
    cases hf : abi.constructors.find?
        (fun c => c.identifier == s || stringCamelCase c.identifier == s) with
    | some c => exact absurd (by simp [Abi.findConstructor, hf]) (h c)
    | none => simp [Abi.findConstructor, hf]
  | byIndex i =>
    cases hf : abi.constructors.get? i with
    | some c =>
      rw [List.get?_eq_getElem?] at hf
      exact absurd (by simp [Abi.findConstructor, hf]) (h c)
    | none =>
      rw [List.get?_eq_getElem?] at hf
      simp [Abi.findConstructor, hf]

theorem filter_inst_of_both (evs : List EventRec) :
    (evs.filter (fun e => e.kind == "CodeStored" || e.kind == "Instantiated")).filter
        (fun e => e.kind == "Instantiated") =
      evs.filter (fun e => e.kind == "Instantiated") := by
  rw [List.filter_filter]
  exact List.filter_congr (fun e _ => by cases h : e.kind == "Instantiated" <;> simp [h])

/-! Claim theorems. -/

/-- C1 counterexample: on a DualPhase runtime whose instantiate call declares
4 arguments and with a caller-supplied non-empty salt, the salt used in the
encoding call (line 102) is the caller's real encoded salt, not the
empty-salt sentinel the claim asserts; the sentinel therefore is not used in
the encoding call of the 4-argument shape, while the real salt is indeed
folded into the encoded tail (the built call's fourth argument ends in the
salt byte 7). -/
theorem C1_counterexample :
    code4.api.contracts.instantiateArgsLen = 4 ∧
    code4.dualEncodingSalt opts0.salt ≠ EMPTY_SALT ∧
    code4.dualEncodingSalt opts0.salt = encodeSalt opts0.salt ∧
    callOf (code4.instantiateDual (CtorSelector.byIndex 0) opts0 [5]) =
      some { sectionName := "contracts", methodName := "instantiate",
             args := [CallArg.num 3, CallArg.num 2, CallArg.hash 99,
                      CallArg.bytes [5, 7]] } := by
  refine ⟨rfl, by decide, rfl, rfl⟩

/-- C1 (amended): for a DualPhase runtime, #instantiateDual inspects the
declared argument count of the runtime's instantiate call.  When it declares
5 arguments, the empty-salt sentinel is used in the encoding call and the
caller's encoded salt is passed as an explicit fifth call parameter; when it
declares 4 arguments, the caller's real encoded salt is the salt supplied to
the encoding call — thereby folded into the encoded constructor-argument
tail — and no explicit salt parameter is passed. -/
theorem C1_dual_arity_salt (code : Code) (sel : CtorSelector) (c : AbiConstructor)
    (o : BlueprintOptions) (p : List CodecArg)
    (h : code.abi.findConstructor sel = .ok c) :
    (code.api.contracts.instantiateArgsLen = 5 →
      code.dualEncodingSalt o.salt = EMPTY_SALT ∧
      callOf (code.instantiateDual sel o p) =
        some { sectionName := "contracts", methodName := "instantiate",
               args := [CallArg.num o.value, CallArg.num o.gasLimit,
                        CallArg.hash code.codeHash,
                        CallArg.bytes (AbiConstructor.toU8a c p (some EMPTY_SALT)),
                        CallArg.bytes (encodeSalt o.salt)] }) ∧
    (code.api.contracts.instantiateArgsLen ≠ 5 →
      code.dualEncodingSalt o.salt = encodeSalt o.salt ∧
      callOf (code.instantiateDual sel o p) =
        some { sectionName := "contracts", methodName := "instantiate",
               args := [CallArg.num o.value, CallArg.num o.gasLimit,
                        CallArg.hash code.codeHash,
                        CallArg.bytes (AbiConstructor.toU8a c p
                          (some (encodeSalt o.salt)))] }) := by
  refine ⟨fun h5 => ?_, fun h5 => ?_⟩
  · have hw : code.dualWithSalt = true := by simp [Code.dualWithSalt, h5]
    refine ⟨by simp [Code.dualEncodingSalt, hw], ?_⟩
    simp [Code.instantiateDual, h, hw, Code.dualEncodingSalt, callOf]
  · have hw : code.dualWithSalt = false := by simp [Code.dualWithSalt, h5]
    refine ⟨by simp [Code.dualEncodingSalt, hw], ?_⟩
    simp [Code.instantiateDual, h, hw, Code.dualEncodingSalt, callOf]

/-- C1 witness: on the five-argument legacy runtime the sentinel is the
encoding-call salt and the caller's salt is the explicit fifth parameter. -/
theorem C1_dual_arity_salt_witness :
    code5.abi.findConstructor (CtorSelector.byIndex 0) = .ok ctorA ∧
    code5.api.contracts.instantiateArgsLen = 5 ∧
    (code5.dualEncodingSalt opts0.salt = EMPTY_SALT ∧
     callOf (code5.instantiateDual (CtorSelector.byIndex 0) opts0 [5]) =
       some { sectionName := "contracts", methodName := "instantiate",
              args := [CallArg.num opts0.value, CallArg.num opts0.gasLimit,
                       CallArg.hash code5.codeHash,
                       CallArg.bytes (AbiConstructor.toU8a ctorA [5] (some EMPTY_SALT)),
                       CallArg.bytes (encodeSalt opts0.salt)] }) :=
  ⟨rfl, rfl, (C1_dual_arity_salt code5 (CtorSelector.byIndex 0) ctorA opts0 [5] rfl).1 rfl⟩

/-- C2: #instantiate selects the SinglePhase builder exactly when the
connected runtime exposes the combined instantiateWithCode call, otherwise
the DualPhase builder, and for the same builder instance (whose runtime
surface is immutable state) every repeated instantiate call selects the same
path. -/
theorem C2_path_selection (code : Code) (sel : CtorSelector) (o : BlueprintOptions)
    (p : List CodecArg) :
    (code.api.contracts.hasInstantiateWithCode = true →
      code.instantiate sel o p = code.instantiateSingle sel o p) ∧
    (code.api.contracts.hasInstantiateWithCode = false →
      code.instantiate sel o p = code.instantiateDual sel o p) ∧
    (∀ sel' o' p',
      (code.instantiate sel o p = code.instantiateSingle sel o p ∧
       code.instantiate sel' o' p' = code.instantiateSingle sel' o' p') ∨
      (code.instantiate sel o p = code.instantiateDual sel o p ∧
       code.instantiate sel' o' p' = code.instantiateDual sel' o' p')) := by
  refine ⟨fun h => ?_, fun h => ?_, fun sel' o' p' => ?_⟩
  · simp [Code.instantiate, h]
  · simp [Code.instantiate, h]
  · cases hb : code.api.contracts.hasInstantiateWithCode with
    | true => exact Or.inl ⟨by simp [Code.instantiate, hb], by simp [Code.instantiate, hb]⟩
    | false => exact Or.inr ⟨by simp [Code.instantiate, hb], by simp [Code.instantiate, hb]⟩

/-- C2 witness: a runtime exposing the combined call selects SinglePhase. -/
theorem C2_path_selection_witness :
    codeS.api.contracts.hasInstantiateWithCode = true ∧
    codeS.instantiate (CtorSelector.byIndex 0) opts0 [5] =
      codeS.instantiateSingle (CtorSelector.byIndex 0) opts0 [5] :=
  ⟨rfl, (C2_path_selection codeS (CtorSelector.byIndex 0) opts0 [5]).1 rfl⟩

/-- C3 counterexample: with two CodeStored events carrying hashes 1 and 2,
the single-phase projector's blueprint handle carries hash 2 — the handle
comes from the last matching event, not the first as the claim states,
because each matching event unconditionally overwrites the slot. -/
theorem C3_counterexample :
    (instantiateSingleTransform rTwoStores).blueprintOf = some { codeHash := some 2 } ∧
    (instantiateSingleTransform rTwoStores).blueprintOf ≠ some { codeHash := some 1 } := by
  refine ⟨rfl, by decide⟩

/-- C3 (amended): in the single-phase result projection's left-to-right
reduction, each CodeStored event overwrites the code-handle slot with a
handle built from its first data field and each Instantiated event overwrites
the contract-handle slot with a handle built from its second data field, so
when several events of the same kind occur the handle comes from the last
such event; each slot being a single optional value, at most one handle of
each kind is produced per submission. -/
theorem C3_last_event_wins (r : SubmittableResult) :
    (instantiateSingleTransform r).blueprintOf =
      ((r.events.filter (fun e => e.kind == "CodeStored")).getLast?).map mkBp ∧
    (instantiateSingleTransform r).contractOf =
      ((r.events.filter (fun e => e.kind == "Instantiated")).getLast?).map mkCt := by
  rw [instantiateSingleTransform_eq]
  constructor
  · simp only [DeploymentResult.blueprintOf, projectSingle]
    rw [foldl_projectStep_fst, filter_cs_of_both]
    cases hx : (r.events.filter (fun e => e.kind == "CodeStored")).getLast? <;> simp [hx]
  · simp only [DeploymentResult.contractOf, projectSingle]
    rw [foldl_projectStep_snd, filter_inst_of_both]
    cases hx : (r.events.filter (fun e => e.kind == "Instantiated")).getLast? <;> simp [hx]

/-- C4: the projection builds the Blueprint handle from the first data field
of a CodeStored event, builds the Contract handle from the second data field
of an Instantiated event, leaves the accumulated pair unchanged on events of
any other kind, and each call path filters to its expected tags: CodeStored
for createBlueprint, CodeStored and Instantiated for the single-phase
instantiate, Instantiated for the dual-phase instantiate. -/
theorem C4_projection_shape (bp : Option Blueprint) (ct : Option Contract)
    (d : List Nat) (e : EventRec) (r : SubmittableResult) :
    projectStep (bp, ct) { kind := "CodeStored", data := d } = (some ⟨d.get? 0⟩, ct) ∧
    projectStep (bp, ct) { kind := "Instantiated", data := d } = (bp, some ⟨d.get? 1⟩) ∧
    (e.kind ≠ "CodeStored" → e.kind ≠ "Instantiated" →
      projectStep (bp, ct) e = (bp, ct)) ∧
    (createBlueprintTransform r).blueprintOf =
      ((r.events.filter (fun ev => ev.kind == "CodeStored")).head?).map mkBp ∧
    instantiateSingleTransform r =
      DeploymentResult.codeSubmittableResult r
        (projectSingle (r.events.filter
          (fun ev => ev.kind == "CodeStored" || ev.kind == "Instantiated"))).1
        (projectSingle (r.events.filter
          (fun ev => ev.kind == "CodeStored" || ev.kind == "Instantiated"))).2 ∧
    (instantiateDualTransform r).contractOf =
      ((r.events.filter (fun ev => ev.kind == "Instantiated")).head?).map mkCt := by
  refine ⟨rfl, rfl, fun h1 h2 => projectStep_other _ e h1 h2, ?_,
          instantiateSingleTransform_eq r, ?_⟩
  · rw [createBlueprintTransform_eq]
    rfl
  · rw [instantiateDualTransform_eq]
    rfl

/-- C4 witness: an event of an unexpected kind leaves the pair unchanged. -/
theorem C4_projection_shape_witness :
    projectStep ((none : Option Blueprint), (none : Option Contract))
      { kind := "Transfer", data := [3] } = (none, none) :=
  (C4_projection_shape none none [] { kind := "Transfer", data := [3] } r0).2.2.1
    (by decide) (by decide)

/-- C5 counterexample: on a DualPhase runtime the result transform of
instantiate wraps the raw result in BlueprintSubmittableResult, not in the
CodeSubmittableResult wrapper the claim names for every path. -/
theorem C5_counterexample :
    code4.api.contracts.hasInstantiateWithCode = false ∧
    (transformResult (code4.instantiate (CtorSelector.byIndex 0) opts0 []) r0).map
      DeploymentResult.isCodeSubmittableResult = some false :=
  ⟨rfl, rfl⟩

/-- C5 (amended): every call path of instantiate returns a call whose result
transform wraps the raw submission result in a deployment-result wrapper; the
SinglePhase path wraps it in CodeSubmittableResult (carrying the optional
blueprint and contract handles) while the DualPhase path wraps it in
BlueprintSubmittableResult, which carries only the optional contract handle
and never a blueprint handle. -/
theorem C5_result_wrapper (code : Code) (sel : CtorSelector) (c : AbiConstructor)
    (o : BlueprintOptions) (p : List CodecArg) (r : SubmittableResult)
    (h : code.abi.findConstructor sel = .ok c) :
    (code.api.contracts.hasInstantiateWithCode = true →
      (transformResult (code.instantiate sel o p) r).map
        DeploymentResult.isCodeSubmittableResult = some true ∧
      (transformResult (code.instantiate sel o p) r).map
        DeploymentResult.rawResult = some r) ∧
    (code.api.contracts.hasInstantiateWithCode = false →
      (transformResult (code.instantiate sel o p) r).map
        DeploymentResult.isCodeSubmittableResult = some false ∧
      (transformResult (code.instantiate sel o p) r).map
        DeploymentResult.rawResult = some r ∧
      (transformResult (code.instantiate sel o p) r).map
        DeploymentResult.blueprintOf = some none) := by
  refine ⟨fun hb => ?_, fun hb => ?_⟩
  · simp [Code.instantiate, hb, Code.instantiateSingle, h, transformResult,
          instantiateSingleTransform_eq, DeploymentResult.isCodeSubmittableResult,
          DeploymentResult.rawResult]
  · simp [Code.instantiate, hb, Code.instantiateDual, h, transformResult,
          instantiateDualTransform_eq, DeploymentResult.isCodeSubmittableResult,
          DeploymentResult.rawResult, DeploymentResult.blueprintOf]

/-- C5 witness: on a combined-call runtime the wrapper is
CodeSubmittableResult and wraps the raw result unchanged. -/
theorem C5_result_wrapper_witness :
    codeS.abi.findConstructor (CtorSelector.byIndex 0) = .ok ctorA ∧
    codeS.api.contracts.hasInstantiateWithCode = true ∧
    ((transformResult (codeS.instantiate (CtorSelector.byIndex 0) opts0 [5]) r0).map
       DeploymentResult.isCodeSubmittableResult = some true ∧
     (transformResult (codeS.instantiate (CtorSelector.byIndex 0) opts0 [5]) r0).map
       DeploymentResult.rawResult = some r0) :=
  ⟨rfl, rfl, (C5_result_wrapper codeS (CtorSelector.byIndex 0) ctorA opts0 [5] r0 rfl).1 rfl⟩

/-- C6: for every selector that does not resolve to a constructor of the ABI
descriptor, both builder paths and the dispatcher fail with
ConstructorNotFound, returning an error and therefore never assembling a
partial or invalid call. -/
theorem C6_unresolved_selector (code : Code) (sel : CtorSelector)
    (o : BlueprintOptions) (p : List CodecArg)
    (h : ∀ c, code.abi.findConstructor sel ≠ .ok c) :
    code.instantiateSingle sel o p = .error .constructorNotFound ∧
    code.instantiateDual sel o p = .error .constructorNotFound ∧
    code.instantiate sel o p = .error .constructorNotFound := by
  have hf := findConstructor_error_shape code.abi sel h
  refine ⟨?_, ?_, ?_⟩
  · simp [Code.instantiateSingle, hf]
  · simp [Code.instantiateDual, hf]
  · cases hb : code.api.contracts.hasInstantiateWithCode <;>
      simp [Code.instantiate, hb, Code.instantiateSingle, Code.instantiateDual, hf]

/-- C6 witness: an unknown string selector resolves to no constructor and
instantiate fails with ConstructorNotFound. -/
theorem C6_unresolved_selector_witness :
    (∀ c, code4.abi.findConstructor (CtorSelector.byId "missing") ≠ .ok c) ∧
    code4.instantiate (CtorSelector.byId "missing") opts0 [] =
      .error .constructorNotFound := by
  have hred : code4.abi.findConstructor (CtorSelector.byId "missing") =
      Except.error DeployError.constructorNotFound := rfl
  have h : ∀ c, code4.abi.findConstructor (CtorSelector.byId "missing") ≠ .ok c := by
    intro c hc
    rw [hred] at hc
    exact Except.noConfusion hc
  exact ⟨h, (C6_unresolved_selector code4 (CtorSelector.byId "missing") opts0 [] h).2.2⟩

/-- C7: the SinglePhase path builds exactly one instantiateWithCode call
carrying, in order, value, gasLimit, the length-prefixed code bundle, the
encoded constructor arguments and the encoded salt; createBlueprint builds
one putCode call carrying the length-prefixed code bundle; the bundle is
wrapped with an explicit compact length prefix on both paths. -/
theorem C7_single_call_shape (code : Code) (sel : CtorSelector) (c : AbiConstructor)
    (o : BlueprintOptions) (p : List CodecArg)
    (h : code.abi.findConstructor sel = .ok c) :
    callOf (code.instantiateSingle sel o p) =
      some { sectionName := "contracts", methodName := "instantiateWithCode",
             args := [CallArg.num o.value, CallArg.num o.gasLimit,
                      CallArg.bytes (compactAddLength code.code),
                      CallArg.bytes (AbiConstructor.toU8a c p none),
                      CallArg.bytes (encodeSalt o.salt)] } ∧
    (code.createBlueprint).call =
      { sectionName := "contracts", methodName := "putCode",
        args := [CallArg.bytes (compactAddLength code.code)] } ∧
    compactAddLength code.code = compactEncode code.code.length ++ code.code := by
  refine ⟨?_, rfl, rfl⟩
  simp [Code.instantiateSingle, h, callOf]

/-- C7 witness: the call shapes at a concrete builder and constructor. -/
theorem C7_single_call_shape_witness :
    codeS.abi.findConstructor (CtorSelector.byIndex 0) = .ok ctorA ∧
    (callOf (codeS.instantiateSingle (CtorSelector.byIndex 0) opts0 [5]) =
       some { sectionName := "contracts", methodName := "instantiateWithCode",
              args := [CallArg.num opts0.value, CallArg.num opts0.gasLimit,
                       CallArg.bytes (compactAddLength codeS.code),
                       CallArg.bytes (AbiConstructor.toU8a ctorA [5] none),
                       CallArg.bytes (encodeSalt opts0.salt)] } ∧
     (codeS.createBlueprint).call =
       { sectionName := "contracts", methodName := "putCode",
         args := [CallArg.bytes (compactAddLength codeS.code)] } ∧
     compactAddLength codeS.code = compactEncode codeS.code.length ++ codeS.code) :=
  ⟨rfl, C7_single_call_shape codeS (CtorSelector.byIndex 0) ctorA opts0 [5] rfl⟩

/-- C8: when neither the ABI-embedded bytes nor the normalized supplied bytes
are recognizable wasm bytecode, construction of the deployment object fails
immediately with InvalidCodeBundle, so no deployment object exists and no
call can be built from it. -/
theorem C8_invalid_code_bundle (api : Api) (abi : Abi) (wasm : U8aLike) (ch : Nat)
    (h1 : isWasm abi.sourceWasm = false) (h2 : isWasm (u8aToU8a wasm) = false) :
    mkCode api abi wasm ch = .error .invalidCodeBundle := by
  simp [mkCode, h1, h2]

/-- C8 witness: bytes without the wasm magic are rejected at construction. -/
theorem C8_invalid_code_bundle_witness :
    isWasm abiBad.sourceWasm = false ∧
    isWasm (u8aToU8a (U8aLike.raw [1, 2, 3])) = false ∧
    mkCode api4 abiBad (U8aLike.raw [1, 2, 3]) 0 = .error .invalidCodeBundle :=
  ⟨rfl, rfl, C8_invalid_code_bundle api4 abiBad (U8aLike.raw [1, 2, 3]) 0 rfl rfl⟩

/-- C9: for a result whose event list contains no CodeStored and no
Instantiated event (in particular an empty list), every projection path
produces a deployment result with both handles unset; the projectors are
total functions, so this is not an error. -/
theorem C9_no_matching_events (r : SubmittableResult)
    (h : ∀ e ∈ r.events, e.kind ≠ "CodeStored" ∧ e.kind ≠ "Instantiated") :
    (createBlueprintTransform r).blueprintOf = none ∧
    (createBlueprintTransform r).contractOf = none ∧
    (instantiateSingleTransform r).blueprintOf = none ∧
    (instantiateSingleTransform r).contractOf = none ∧
    (instantiateDualTransform r).blueprintOf = none ∧
    (instantiateDualTransform r).contractOf = none := by
  have hCS : r.events.filter (fun e => e.kind == "CodeStored") = [] :=
    List.filter_eq_nil_iff.mpr fun e he => by simp [(h e he).1]
  have hI : r.events.filter (fun e => e.kind == "Instantiated") = [] :=
    List.filter_eq_nil_iff.mpr fun e he => by simp [(h e he).2]
  have hB : r.events.filter
      (fun e => e.kind == "CodeStored" || e.kind == "Instantiated") = [] :=
    List.filter_eq_nil_iff.mpr fun e he => by simp [(h e he).1, (h e he).2]
  rw [createBlueprintTransform_eq, instantiateSingleTransform_eq,
      instantiateDualTransform_eq, hCS, hI, hB]
  simp [DeploymentResult.blueprintOf, DeploymentResult.contractOf, projectSingle]

/-- C9 witness: the empty event list leaves every handle unset. -/
theorem C9_no_matching_events_witness :
    (instantiateSingleTransform r0).blueprintOf = none ∧
    (instantiateSingleTransform r0).contractOf = none ∧
    (instantiateDualTransform r0).contractOf = none := by
  have hr : ∀ e ∈ r0.events, e.kind ≠ "CodeStored" ∧ e.kind ≠ "Instantiated" := by
    intro e he
    simp [r0] at he
  exact ⟨(C9_no_matching_events r0 hr).2.2.1, (C9_no_matching_events r0 hr).2.2.2.1,
         (C9_no_matching_events r0 hr).2.2.2.2.2⟩

/-- C10: a lookup in the per-constructor tx table returns the entry of the
first constructor, in ABI declaration order, whose camel-cased identifier
equals the looked-up name; a later constructor normalizing to the same name
never overwrites an existing entry. -/
theorem C10_first_constructor_wins (cs : List AbiConstructor) (n : String) :
    (buildTxTable cs).lookup n =
      cs.find? (fun c => stringCamelCase c.identifier == n) := by
  unfold buildTxTable
  rw [foldl_txTableStep_lookup, List.lookup_nil]

end ApiContract
